import Mathlib

/-!
Verification of the recent-locations store and surrounding orchestration of
the `locationfinder` widget (`src/src/App.jsx`), as a shallow embedding.

Coordinates are modelled as rationals: no claim depends on floating-point
rounding, only on the fields being carried along unchanged.
-/

namespace LocationFinder

/-- Accuracy of a resolved location: the literal string `"From search"` for
search-derived results, or a number of meters for device-derived ones. -/
inductive Accuracy where
  | fromSearch
  | meters (m : ℚ)
deriving DecidableEq, Repr

/-- A resolved location record as built in `App.jsx` (search handler and
device-locate success callback): display name, coordinates, accuracy
descriptor, creation timestamp. -/
structure Location where
  name : String
  lat : ℚ
  lng : ℚ
  accuracy : Accuracy
  timestamp : String
deriving DecidableEq, Repr

/-- `addToHistory` (App.jsx lines 98-104): the state-update function passed to
`setHistory` — drop every existing entry whose `name` equals `loc.name`,
prepend `loc`, keep the first 5 (`slice(0, 5)` = `take 5`). -/
def addToHistory (prev : List Location) (loc : Location) : List Location :=
  (loc :: prev.filter (fun item => item.name != loc.name)).take 5

/-- One-step length bound: a single `addToHistory` always yields at most 5
entries, whatever the previous state was. -/
theorem addToHistory_length_le (prev : List Location) (loc : Location) :
    (addToHistory prev loc).length ≤ 5 := by
  unfold addToHistory
  calc (List.take 5 _).length ≤ 5 := by
        rw [List.length_take]; exact min_le_left _ _

/-- Folding further adds keeps the bound. -/
theorem foldl_addToHistory_length_le (locs : List Location) (acc : List Location)
    (hacc : acc.length ≤ 5) : (locs.foldl addToHistory acc).length ≤ 5 := by
  induction locs generalizing acc with
  | nil => exact hacc
  | cons a locs ih =>
    exact ih (addToHistory acc a) (addToHistory_length_le acc a)

/-- C1: for every sequence of `add` calls (here: at least one add, then any
further adds), starting from any history state, the resulting history length
never exceeds 5. -/
theorem history_length_le_five (init : List Location) (loc : Location)
    (locs : List Location) :
    (locs.foldl addToHistory (addToHistory init loc)).length ≤ 5 :=
  foldl_addToHistory_length_le locs _ (addToHistory_length_le init loc)

/-- Sample location "A" (search-derived). -/
def locA : Location := ⟨"A", 1, 2, Accuracy.fromSearch, "2024-01-01T00:00:00Z"⟩

/-- Sample location "B". -/
def locB : Location := ⟨"B", 3, 4, Accuracy.fromSearch, "2024-01-01T00:01:00Z"⟩

/-- Sample location "C". -/
def locC : Location := ⟨"C", 5, 6, Accuracy.meters 10, "2024-01-01T00:02:00Z"⟩

/-- Sample location "D". -/
def locD : Location := ⟨"D", 7, 8, Accuracy.fromSearch, "2024-01-01T00:03:00Z"⟩

/-- Sample location "E". -/
def locE : Location := ⟨"E", 9, 10, Accuracy.meters 25, "2024-01-01T00:04:00Z"⟩

/-- Sample location "F". -/
def locF : Location := ⟨"F", 11, 12, Accuracy.fromSearch, "2024-01-01T00:05:00Z"⟩

/-- A second location also named "A" but with different fields, standing for a
fresh resolution of the same display name. -/
def locA2 : Location := ⟨"A", 13, 14, Accuracy.meters 50, "2024-01-02T00:00:00Z"⟩

/-- Filtering by keeping names different from `loc.name` leaves no entry whose
name equals `loc.name`. -/
theorem filter_take_no_dup (prev : List Location) (loc : Location) (n : Nat) :
    ((prev.filter (fun i => i.name != loc.name)).take n).filter
      (fun i => i.name == loc.name) = [] := by
  refine List.filter_eq_nil_iff.mpr ?_
  intro a ha
  have haf : a ∈ prev.filter (fun i => i.name != loc.name) :=
    List.take_subset n _ ha
  have hane := List.of_mem_filter haf
  simpa using hane

/-- C2: adding a location whose name already occurs in the history yields
exactly one entry with that name, positioned first and carrying `loc`'s own
fields; the remaining entries keep their relative order (they form a sublist
of the previous state). The concrete scenario add A, add B, add C, add A
yields [A, C, B]. -/
theorem addToHistory_dedup_refresh (prev : List Location) (loc : Location)
    (hmem : loc.name ∈ prev.map Location.name) :
    ((addToHistory prev loc).filter (fun i => i.name == loc.name)).length = 1 ∧
    (addToHistory prev loc).head? = some loc ∧
    ((addToHistory prev loc).tail).Sublist prev ∧
    addToHistory (addToHistory (addToHistory (addToHistory [] locA) locB) locC) locA2
      = [locA2, locC, locB] := by
  have hrepr : addToHistory prev loc
      = loc :: (prev.filter (fun i => i.name != loc.name)).take 4 := by
    unfold addToHistory
    exact List.take_succ_cons
  refine ⟨?_, ?_, ?_, by decide⟩
  · rw [hrepr, List.filter_cons_of_pos (by simp), filter_take_no_dup]
    rfl
  · rw [hrepr]
    rfl
  · rw [hrepr]
    exact (List.take_sublist 4 _).trans (List.filter_sublist prev)

/-- Witness for `addToHistory_dedup_refresh` at a concrete history containing
the name being re-added. -/
theorem addToHistory_dedup_refresh_witness :
    locA2.name ∈ [locC, locB, locA].map Location.name ∧
    (((addToHistory [locC, locB, locA] locA2).filter
        (fun i => i.name == locA2.name)).length = 1 ∧
      (addToHistory [locC, locB, locA] locA2).head? = some locA2 ∧
      ((addToHistory [locC, locB, locA] locA2).tail).Sublist [locC, locB, locA] ∧
      addToHistory (addToHistory (addToHistory (addToHistory [] locA) locB) locC) locA2
        = [locA2, locC, locB]) :=
  ⟨by decide, addToHistory_dedup_refresh [locC, locB, locA] locA2 (by decide)⟩

/-- C3: with the history already holding 5 entries and a 6th distinct name
arriving, the result is the new entry followed by the first 4 old ones — the
oldest entry is evicted and the length stays exactly 5. -/
theorem addToHistory_evicts_oldest (prev : List Location) (loc : Location)
    (hlen : prev.length = 5) (hfresh : loc.name ∉ prev.map Location.name) :
    addToHistory prev loc = loc :: prev.take 4 ∧
    (addToHistory prev loc).length = 5 := by
  have hfilter : prev.filter (fun i => i.name != loc.name) = prev := by
    refine List.filter_eq_self.mpr ?_
    intro a ha
    refine bne_iff_ne.mpr ?_
    intro hEq
    exact hfresh (hEq ▸ List.mem_map_of_mem Location.name ha)
  have hrepr : addToHistory prev loc = loc :: prev.take 4 := by
    unfold addToHistory
    rw [hfilter]
    exact List.take_succ_cons
  refine ⟨hrepr, ?_⟩
  rw [hrepr]
  simp [List.length_take, hlen]

/-- Witness for `addToHistory_evicts_oldest`: a full 5-entry history plus a
6th distinct name. -/
theorem addToHistory_evicts_oldest_witness :
    ([locA, locB, locC, locD, locE].length = 5 ∧
      locF.name ∉ [locA, locB, locC, locD, locE].map Location.name) ∧
    (addToHistory [locA, locB, locC, locD, locE] locF
        = locF :: [locA, locB, locC, locD, locE].take 4 ∧
      (addToHistory [locA, locB, locC, locD, locE] locF).length = 5) :=
  ⟨⟨by decide, by decide⟩,
    addToHistory_evicts_oldest [locA, locB, locC, locD, locE] locF
      (by decide) (by decide)⟩

/-- C5: `addToHistory` is idempotent on the same location — adding `x` twice
in a row equals adding it once, and the single entry for `x` is still at the
front. -/
theorem addToHistory_idempotent (prev : List Location) (x : Location) :
    addToHistory (addToHistory prev x) x = addToHistory prev x ∧
    (addToHistory (addToHistory prev x) x).head? = some x := by
  have hrepr : addToHistory prev x
      = x :: (prev.filter (fun i => i.name != x.name)).take 4 := by
    unfold addToHistory
    exact List.take_succ_cons
  have hfilter : (addToHistory prev x).filter (fun item => item.name != x.name)
      = (prev.filter (fun item => item.name != x.name)).take 4 := by
    rw [hrepr, List.filter_cons_of_neg (by simp),
      List.filter_eq_self.mpr]
    intro a ha
    have haf : a ∈ prev.filter (fun item => item.name != x.name) :=
      List.take_subset 4 _ ha
    have hp := List.of_mem_filter haf
    simpa using hp
  have hmain : addToHistory (addToHistory prev x) x = addToHistory prev x := by
    show (x :: (addToHistory prev x).filter
        (fun item => item.name != x.name)).take 5 = addToHistory prev x
    rw [hfilter, hrepr, List.take_succ_cons, List.take_take]
    norm_num
  refine ⟨hmain, ?_⟩
  rw [hmain, hrepr]
  rfl

/-! ## Persistence (localStorage key `locationHistory`) -/

/-- What the durable key `locationHistory` can hold, as seen by
`JSON.parse`: either content that parses back to a list of locations, or
malformed content (parse throws). The key being absent is modelled by
`Option.none` around this type. -/
inductive StoredContent where
  | wellFormed (l : List Location)
  | malformed (raw : String)
deriving DecidableEq, Repr

/-- Hydration at startup (App.jsx lines 80-88): read the key; if absent keep
the initial empty history; if present, `JSON.parse` inside `try` — on success
the parsed list becomes the history, on failure a message goes to
`console.error` (the operator log, second component) and the history stays
empty. Storage itself is only read, never written here. -/
def hydrate (store : Option StoredContent) : List Location × List String :=
  match store with
  | none => ([], [])
  | some (StoredContent.wellFormed l) => (l, [])
  | some (StoredContent.malformed _) =>
      ([], ["Failed to parse location history"])

/-- `load`: the history a fresh process starts with, given the durable
store's content. -/
def load (store : Option StoredContent) : List Location :=
  (hydrate store).1

/-- The persist effect (App.jsx lines 92-96): whenever the history changes,
write it to the key — but only when it is non-empty; an empty history leaves
the store untouched. -/
def persistEffect (store : Option StoredContent) (history : List Location) :
    Option StoredContent :=
  if history.isEmpty then store else some (StoredContent.wellFormed history)

/-- The store content after the startup effects ran: hydration reads, then
the persist effect fires once with the hydrated history. -/
def startupStore (store : Option StoredContent) : Option StoredContent :=
  persistEffect store (hydrate store).1

/-- A process's state: the in-memory `history` plus the durable store. -/
structure PState where
  history : List Location
  store : Option StoredContent
deriving DecidableEq, Repr

/-- The state right after a process starts: history hydrated from the store,
store after the startup persist effect. -/
def startProc (store : Option StoredContent) : PState :=
  { history := (hydrate store).1, store := startupStore store }

/-- A history-mutating user operation. -/
inductive HistOp where
  | add (loc : Location)
  | clear
deriving DecidableEq, Repr

/-- Applying one operation: `add` runs `addToHistory` and then the persist
effect; `clearHistory` (App.jsx lines 168-172) empties the in-memory history
and removes the durable key (the subsequent persist effect sees an empty
history and writes nothing). -/
def applyOp (s : PState) : HistOp → PState
  | HistOp.add loc =>
      let h := addToHistory s.history loc
      { history := h, store := persistEffect s.store h }
  | HistOp.clear => { history := [], store := none }

/-- Running a sequence of operations. -/
def runOps (s : PState) (ops : List HistOp) : PState :=
  ops.foldl applyOp s

/-- The startup persist effect never changes what `load` would return. -/
theorem load_startupStore (store : Option StoredContent) :
    load (startupStore store) = load store := by
  cases store with
  | none => rfl
  | some c =>
      cases c with
      | wellFormed l => cases l <;> rfl
      | malformed raw => rfl

/-- Each operation preserves the agreement between the durable store and the
in-memory history. -/
theorem applyOp_load_eq (s : PState) (op : HistOp)
    (h : load s.store = s.history) :
    load (applyOp s op).store = (applyOp s op).history := by
  cases op with
  | add loc =>
      show load (persistEffect s.store (addToHistory s.history loc))
          = addToHistory s.history loc
      have hne : (addToHistory s.history loc).isEmpty = false := by
        unfold addToHistory
        rw [List.take_succ_cons]
        rfl
      unfold persistEffect
      rw [hne]
      rfl
  | clear => rfl

/-- Invariant preserved across any operation sequence. -/
theorem runOps_load_eq (ops : List HistOp) (s : PState)
    (h : load s.store = s.history) :
    load (runOps s ops).store = (runOps s ops).history := by
  induction ops generalizing s with
  | nil => exact h
  | cons op ops ih => exact ih (applyOp s op) (applyOp_load_eq s op h)

/-- C4: persist/reload round-trip. Starting a process from any durable store
and performing any sequence of `add`/`clear` operations, a subsequent
process's `load` returns exactly the final in-memory history; and if the
sequence ends with `clear`, that load yields the empty sequence. -/
theorem persist_reload_roundtrip (store0 : Option StoredContent)
    (ops : List HistOp) :
    load (runOps (startProc store0) ops).store
      = (runOps (startProc store0) ops).history ∧
    load (runOps (startProc store0) (ops ++ [HistOp.clear])).store = [] := by
  have hstart : load (startProc store0).store = (startProc store0).history :=
    load_startupStore store0
  refine ⟨runOps_load_eq ops _ hstart, ?_⟩
  show load ((ops ++ [HistOp.clear]).foldl applyOp (startProc store0)).store = []
  rw [List.foldl_append]
  rfl

/-- C9: `load` semantics at startup. A missing key yields the empty history
and no log output; malformed content yields the empty history and an
operator-log entry, and `hydrate` is a total function — it never throws to
its caller. -/
theorem hydrate_missing_and_malformed (raw : String) :
    hydrate none = ([], []) ∧
    (hydrate (some (StoredContent.malformed raw))).1 = [] ∧
    (hydrate (some (StoredContent.malformed raw))).2 ≠ [] := by
  refine ⟨rfl, rfl, ?_⟩
  intro h
  simp [hydrate] at h

/-- Iterated process startups with no user operation in between. -/
def runStartups : Nat → Option StoredContent → Option StoredContent
  | 0, store => store
  | n + 1, store => runStartups n (startupStore store)

/-- C10: a malformed durable value survives hydration untouched — every later
startup re-reads the same malformed content (and starts with an empty
history and the same parse-failure log), until an `add` overwrites the key
or a `clear` removes it. -/
theorem malformed_store_persists (raw : String) (n : Nat) (loc : Location) :
    runStartups n (some (StoredContent.malformed raw))
      = some (StoredContent.malformed raw) ∧
    hydrate (some (StoredContent.malformed raw))
      = ([], ["Failed to parse location history"]) ∧
    (applyOp (startProc (some (StoredContent.malformed raw)))
        (HistOp.add loc)).store = some (StoredContent.wellFormed [loc]) ∧
    (applyOp (startProc (some (StoredContent.malformed raw)))
        HistOp.clear).store = none := by
  refine ⟨?_, rfl, rfl, rfl⟩
  induction n with
  | zero => rfl
  | succ n ih => exact ih

/-! ## Reverse geocoding (`getAddressFromLatLng`, App.jsx lines 30-45) -/

/-- Outcome of the `fetch` + `response.json()` pair as the code observes it:
a network (or JSON-body) failure lands in the `catch`; otherwise the payload
has a `status` string and a `results` field. `results := none` models a
malformed payload whose `results` is absent (so `data.results.length`
throws, also landing in the `catch`); `some rs` models a results array whose
entries carry a `formatted_address`. -/
inductive GeocodeResponse where
  | networkFailure
  | payload (status : String) (results : Option (List String))
deriving DecidableEq, Repr

/-- `getAddressFromLatLng(lat, lng)`: returns the first result's formatted
address when `data.status === "OK" && data.results.length > 0`, otherwise the
sentinel `"Unknown location"`; every thrown error is caught and also yields
the sentinel. The `&&` is short-circuiting: a non-"OK" status never touches
`results`, so a malformed `results` only matters under status "OK". -/
def getAddressFromLatLng (lat lng : ℚ) (resp : GeocodeResponse) : String :=
  match resp with
  | GeocodeResponse.networkFailure => "Unknown location"
  | GeocodeResponse.payload status results =>
      if status == "OK" then
        match results with
        | none => "Unknown location"
        | some [] => "Unknown location"
        | some (addr :: _) => addr
      else
        "Unknown location"

/-- C6: for every coordinate pair, the resolver returns the first result's
formatted address exactly when the response has status "OK" and at least one
result, and the literal `"Unknown location"` in every other case (non-"OK"
status, network failure, malformed response); being a total function into
`String`, it never propagates an error to the caller. -/
theorem getAddressFromLatLng_spec (lat lng : ℚ) (resp : GeocodeResponse) :
    (∀ addr rest,
        resp = GeocodeResponse.payload "OK" (some (addr :: rest)) →
        getAddressFromLatLng lat lng resp = addr) ∧
    ((∀ addr rest,
        resp ≠ GeocodeResponse.payload "OK" (some (addr :: rest))) →
        getAddressFromLatLng lat lng resp = "Unknown location") := by
  constructor
  · intro addr rest h
    subst h
    rfl
  · intro h
    cases resp with
    | networkFailure => rfl
    | payload status results =>
        by_cases hs : status = "OK"
        · subst hs
          cases results with
          | none => rfl
          | some rs =>
              cases rs with
              | nil => rfl
              | cons addr rest => exact absurd rfl (h addr rest)
        · simp [getAddressFromLatLng, hs]

/-- Witness for `getAddressFromLatLng_spec`: both branches at concrete
responses. -/
theorem getAddressFromLatLng_spec_witness :
    getAddressFromLatLng 1 2
        (GeocodeResponse.payload "OK" (some ["10 Main St"])) = "10 Main St" ∧
    getAddressFromLatLng 1 2
        (GeocodeResponse.payload "ZERO_RESULTS" (some ["x"]))
      = "Unknown location" :=
  ⟨(getAddressFromLatLng_spec 1 2
      (GeocodeResponse.payload "OK" (some ["10 Main St"]))).1
      "10 Main St" [] rfl,
    (getAddressFromLatLng_spec 1 2
      (GeocodeResponse.payload "ZERO_RESULTS" (some ["x"]))).2
      (by intro addr rest h; simp at h)⟩

/-! ## Orchestrator state (`App` component state and handlers) -/

/-- The component's state variables (App.jsx lines 6-11), minus the input
ref: current selection, error string, loading flag, history, panel
visibility, copied flag. -/
structure AppState where
  location : Option Location
  error : String
  loading : Bool
  history : List Location
  showHistory : Bool
  copied : Bool
deriving DecidableEq, Repr

/-- The geolocation error callback (App.jsx lines 133-137): sets the error to
the template string `Error: ${err.message}`, clears the current selection,
stops loading. It performs no history update. -/
def locateErrorCallback (s : AppState) (errMessage : String) : AppState :=
  { s with
    error := "Error: " ++ errMessage
    location := none
    loading := false }

/-- A concrete pre-state for exercising the error callback: a selection is
showing and a device locate is in flight. -/
def preLocateState : AppState :=
  { location := some locA
    error := ""
    loading := true
    history := [locA]
    showHistory := false
    copied := false }

/-- C7 counterexample: the user-visible message does NOT equal the
collaborator's reason text — the code prefixes it with `"Error: "`. With
reason `"User denied Geolocation"` the stored error is
`"Error: User denied Geolocation"`. -/
theorem locateError_message_not_reason :
    (locateErrorCallback preLocateState "User denied Geolocation").error
      ≠ "User denied Geolocation" := by
  decide

/-- C7 (amended): on a device-locate failure the user-visible error message
equals `"Error: "` followed by the collaborator's reason text, the current
selection is cleared, and the history (and hence its length) is unchanged. -/
theorem locateError_effects (s : AppState) (reason : String) :
    (locateErrorCallback s reason).error = "Error: " ++ reason ∧
    (locateErrorCallback s reason).location = none ∧
    (locateErrorCallback s reason).history = s.history := by
  exact ⟨rfl, rfl, rfl⟩

/-- Side effects the locate handler can issue. -/
inductive Effect where
  | geolocationRequest
deriving DecidableEq, Repr

/-- `getCurrentLocation` (App.jsx lines 106-144) up to its first suspension
point: if geolocation is unsupported, set an error and stop; otherwise set
`loading`, clear the error, and issue the geolocation request. -/
def getCurrentLocation (geolocationSupported : Bool) (s : AppState) :
    AppState × List Effect :=
  if geolocationSupported then
    ({ s with loading := true, error := "" }, [Effect.geolocationRequest])
  else
    ({ s with error := "Geolocation is not supported by your browser." }, [])

/-- The locate operation as the user can trigger it: the only caller of
`getCurrentLocation` is the button at App.jsx lines 237-240, which carries
`disabled={loading}` — while a locate is in flight the click is inert. -/
def onLocateRequested (geolocationSupported : Bool) (s : AppState) :
    AppState × List Effect :=
  if s.loading then (s, []) else getCurrentLocation geolocationSupported s

/-- C8: invoking the locate operation while already locating is a no-op —
the state is unchanged and no geolocation request is issued. -/
theorem onLocateRequested_noop_when_loading (g : Bool) (s : AppState)
    (h : s.loading = true) :
    onLocateRequested g s = (s, []) := by
  unfold onLocateRequested
  rw [h]
  rfl

/-- Witness for `onLocateRequested_noop_when_loading` at a concrete loading
state. -/
theorem onLocateRequested_noop_witness :
    preLocateState.loading = true ∧
    onLocateRequested true preLocateState = (preLocateState, []) :=
  ⟨rfl, onLocateRequested_noop_when_loading true preLocateState rfl⟩

end LocationFinder
